import Mathlib

/-!
Verification of the daily-puzzle generation-and-cache pipeline.

The repository contains three variants of the Next.js API handler:
* variant B-mem (`src/pages/api/handler.ts`, first variant): shape-B response
  (`{theme, words: [string], clues: {word: clue}}`), module-level memory cache
  (`cachedResponse`/`lastFetched`), `sanitizeJSON` applied before `JSON.parse`;
* variant B-blob (`src/pages/api/handler.ts`, blob variant): same shape-B
  normalization, but a Vercel-Blob durable store keyed by the UTC date and no
  memory tier;
* variant A (`src/unnamed/part_000` and the third variant of `handler.ts`):
  shape-A response (`{theme, words: [{word, clue}]}`), memory cache, no
  sanitization, and an explicit "No content" throw.

Texts are modelled as `List Char`.  Machine integers do not occur; dates are
modelled by their epoch-millisecond value (`Nat`), and the calendar-day
functions (`Date.toDateString` comparison, `toISOString().slice(0, 10)`) by
the UTC day index `ms / 86400000`, which has the same equality classes as the
date strings they produce (the source's `toDateString` uses the runtime's
local calendar; we fix the UTC reference, which only relabels the classes).
`JSON.parse` is modelled by an executable recursive-descent parser of the JSON
grammar; JS exceptions are modelled by `Option`/error codes.
-/

/-! ## Text utilities (modelling JS string primitives used by the handlers) -/

/-- The backtick character (written by code to stay clear of notation). -/
def bt : Char := '\x60'

/-- Whitespace stripped by `String.prototype.trim` (the ASCII part, which is
all the handlers ever produce). -/
def isWS (c : Char) : Bool :=
  c == ' ' || c == '\t' || c == '\n' || c == '\r' || c == '\x0b' || c == '\x0c'

/-- `String.prototype.trim`: drop leading and trailing whitespace. -/
def trimChars (s : List Char) : List Char :=
  (((s.dropWhile isWS).reverse.dropWhile isWS)).reverse

/-- One pass of `String.prototype.replace(/pat/g, "")` for a literal pattern
`pat`: scan left to right; whenever `pat` matches at the current position,
delete it and continue after the match, otherwise keep the character.  The
fuel argument makes the recursion structural; `removeAll` supplies enough. -/
def removeAllFuel (pat : List Char) : Nat → List Char → List Char
  | _, [] => []
  | 0, s => s
  | fuel+1, c :: rest =>
    if pat.isPrefixOf (c :: rest) ∧ pat ≠ [] then
      removeAllFuel pat fuel (rest.drop (pat.length - 1))
    else
      c :: removeAllFuel pat fuel rest

/-- `s.replace(/pat/g, "")` for a literal, nonempty pattern. -/
def removeAll (pat s : List Char) : List Char := removeAllFuel pat s.length s

/-- The pattern of the first replacement in `sanitizeJSON`: three backticks
followed by `json`. -/
def fenceJson : List Char := [bt, bt, bt, 'j', 's', 'o', 'n']

/-- The pattern of the second replacement in `sanitizeJSON`: three backticks. -/
def ticks : List Char := [bt, bt, bt]

/-- `sanitizeJSON` from `handler.ts`:
`response.replace(/```json/g, "").replace(/```/g, "").trim()`. -/
def sanitizeJSON (s : List Char) : List Char :=
  trimChars (removeAll ticks (removeAll fenceJson s))

/-- `String.prototype.toUpperCase`, ASCII part (all handler inputs in the
claims are ASCII; JS additionally maps non-ASCII letters). -/
def upperStr (s : List Char) : List Char := s.map Char.toUpper

/-! ## JSON values and a model of `JSON.parse` -/

/-- Parsed JSON values.  Numbers keep their source lexeme: no handler ever
computes with a number, so this is lossless. -/
inductive Json where
  | null : Json
  | bool (b : Bool) : Json
  | num (lexeme : List Char) : Json
  | str (s : List Char) : Json
  | arr (elems : List Json) : Json
  | obj (members : List (List Char × Json)) : Json

/-- JSON insignificant whitespace (RFC 8259 / ECMA-404). -/
def jsonWsB (c : Char) : Bool :=
  c == ' ' || c == '\t' || c == '\n' || c == '\r'

/-- Skip JSON whitespace. -/
def skipWs (s : List Char) : List Char := s.dropWhile jsonWsB

/-- Hexadecimal digit test for `\u` escapes. -/
def isHexDigitB (c : Char) : Bool :=
  c.isDigit || ('a' ≤ c && c ≤ 'f') || ('A' ≤ c && c ≤ 'F')

/-- Value of a hexadecimal digit. -/
def hexVal (c : Char) : Nat :=
  if c.isDigit then c.toNat - 48
  else if 'a' ≤ c then c.toNat - 87
  else c.toNat - 55

/-- Parse the body of a JSON string after the opening quote, handling the
escape sequences of the JSON grammar and rejecting raw control characters;
returns the decoded characters and the input after the closing quote. -/
def parseStringBody : Nat → List Char → Option (List Char × List Char)
  | 0, _ => none
  | _+1, [] => none
  | f+1, c :: rest =>
    if c == '"' then some ([], rest)
    else if c == '\\' then
      match rest with
      | [] => none
      | e :: rest2 =>
        if e == '"' then (parseStringBody f rest2).map (fun p => ('"' :: p.1, p.2))
        else if e == '\\' then (parseStringBody f rest2).map (fun p => ('\\' :: p.1, p.2))
        else if e == '/' then (parseStringBody f rest2).map (fun p => ('/' :: p.1, p.2))
        else if e == 'b' then (parseStringBody f rest2).map (fun p => ('\x08' :: p.1, p.2))
        else if e == 'f' then (parseStringBody f rest2).map (fun p => ('\x0c' :: p.1, p.2))
        else if e == 'n' then (parseStringBody f rest2).map (fun p => ('\n' :: p.1, p.2))
        else if e == 'r' then (parseStringBody f rest2).map (fun p => ('\r' :: p.1, p.2))
        else if e == 't' then (parseStringBody f rest2).map (fun p => ('\t' :: p.1, p.2))
        else if e == 'u' then
          match rest2 with
          | h1 :: h2 :: h3 :: h4 :: rest3 =>
            if isHexDigitB h1 && isHexDigitB h2 && isHexDigitB h3 && isHexDigitB h4 then
              (parseStringBody f rest3).map
                (fun p =>
                  (Char.ofNat (((hexVal h1 * 16 + hexVal h2) * 16 + hexVal h3) * 16 + hexVal h4)
                    :: p.1, p.2))
            else none
          | _ => none
        else none
    else if c.toNat < 32 then none
    else (parseStringBody f rest).map (fun p => (c :: p.1, p.2))

/-- Split a leading run of decimal digits from the input. -/
def spanDigits (s : List Char) : List Char × List Char :=
  (s.takeWhile Char.isDigit, s.dropWhile Char.isDigit)

/-- Parse the optional fraction part of a JSON number. -/
def parseFrac : List Char → Option (List Char × List Char)
  | '.' :: r =>
    match spanDigits r with
    | ([], _) => none
    | (fs, r2) => some ('.' :: fs, r2)
  | s => some ([], s)

/-- Parse the optional exponent part of a JSON number. -/
def parseExp : List Char → Option (List Char × List Char)
  | [] => some ([], [])
  | c :: r =>
    if c == 'e' || c == 'E' then
      match r with
      | '+' :: r1 =>
        (match spanDigits r1 with
          | ([], _) => none
          | (ds, r2) => some (c :: '+' :: ds, r2))
      | '-' :: r1 =>
        (match spanDigits r1 with
          | ([], _) => none
          | (ds, r2) => some (c :: '-' :: ds, r2))
      | _ =>
        (match spanDigits r with
          | ([], _) => none
          | (ds, r2) => some (c :: ds, r2))
    else some ([], c :: r)

/-- Parse a JSON number (starting at `-` or a digit); returns the lexeme. -/
def parseNumber (s : List Char) : Option (List Char × List Char) :=
  let (neg, s1) := match s with
    | '-' :: r => (['-'], r)
    | _ => (([] : List Char), s)
  match spanDigits s1 with
  | ([], _) => none
  | (ds, s2) =>
    if 1 < ds.length ∧ ds.headI = '0' then none
    else
      match parseFrac s2 with
      | none => none
      | some (fr, s3) =>
        match parseExp s3 with
        | none => none
        | some (ex, s4) => some (neg ++ ds ++ fr ++ ex, s4)

mutual

/-- Parse one JSON value (leading whitespace allowed); fuel-indexed. -/
def parseV : Nat → List Char → Option (Json × List Char)
  | 0, _ => none
  | f+1, s =>
    match skipWs s with
    | [] => none
    | c :: rest =>
      if c == '\x7b' then parseObjBody f (skipWs rest)
      else if c == '[' then parseArrBody f (skipWs rest)
      else if c == '"' then
        (parseStringBody (rest.length + 1) rest).map (fun p => (Json.str p.1, p.2))
      else if c == 't' then
        match rest with
        | 'r' :: 'u' :: 'e' :: r => some (Json.bool true, r)
        | _ => none
      else if c == 'f' then
        match rest with
        | 'a' :: 'l' :: 's' :: 'e' :: r => some (Json.bool false, r)
        | _ => none
      else if c == 'n' then
        match rest with
        | 'u' :: 'l' :: 'l' :: r => some (Json.null, r)
        | _ => none
      else if c == '-' || c.isDigit then
        (parseNumber (c :: rest)).map (fun p => (Json.num p.1, p.2))
      else none

/-- Parse an object body, positioned after `\x7b` with whitespace skipped. -/
def parseObjBody : Nat → List Char → Option (Json × List Char)
  | 0, _ => none
  | f+1, s =>
    match s with
    | '\x7d' :: r => some (Json.obj [], r)
    | _ => (parseMembers f s).map (fun p => (Json.obj p.1, p.2))

/-- Parse one or more `"key": value` members up to the closing brace. -/
def parseMembers : Nat → List Char → Option (List (List Char × Json) × List Char)
  | 0, _ => none
  | f+1, s =>
    match s with
    | '"' :: r =>
      match parseStringBody (r.length + 1) r with
      | none => none
      | some (k, r2) =>
        match skipWs r2 with
        | ':' :: r3 =>
          match parseV f r3 with
          | none => none
          | some (v, r4) =>
            match skipWs r4 with
            | ',' :: r5 => (parseMembers f (skipWs r5)).map (fun p => ((k, v) :: p.1, p.2))
            | '\x7d' :: r5 => some ([(k, v)], r5)
            | _ => none
        | _ => none
    | _ => none

/-- Parse an array body, positioned after `[` with whitespace skipped. -/
def parseArrBody : Nat → List Char → Option (Json × List Char)
  | 0, _ => none
  | f+1, s =>
    match s with
    | ']' :: r => some (Json.arr [], r)
    | _ => (parseElems f s).map (fun p => (Json.arr p.1, p.2))

/-- Parse one or more array elements up to the closing bracket. -/
def parseElems : Nat → List Char → Option (List Json × List Char)
  | 0, _ => none
  | f+1, s =>
    match parseV f s with
    | none => none
    | some (v, r) =>
      match skipWs r with
      | ',' :: r2 => (parseElems f r2).map (fun p => (v :: p.1, p.2))
      | ']' :: r2 => some ([v], r2)
      | _ => none

end

/-- `JSON.parse`: parse one value and require only whitespace to follow;
`none` models the thrown `SyntaxError`.  The fuel bound is generous: the
parser consumes at least one character for every two recursive calls. -/
def jsonParse (s : List Char) : Option Json :=
  match parseV (3 * s.length + 8) s with
  | some (v, r) => if skipWs r = [] then some v else none
  | none => none

/-! ## The Puzzle record and normalization (`formattedResponse`) -/

/-- The `CachedResponse` / `formattedResponse` record
`{ theme, words, clues }`.  `theme` is `none` when the parsed object has no
`theme` member (JS `undefined`); clue values are `none` when a shape-A entry
has no `clue` member. -/
structure Puzzle where
  theme : Option Json
  words : List (List Char)
  clues : List (List Char × Option Json)

/-- JS property read `obj[k]` on a parsed object: the last member with the
key wins (as with duplicate keys in `JSON.parse`); `none` is `undefined`. -/
def getField (kvs : List (List Char × Json)) (k : List Char) : Option Json :=
  (kvs.reverse.find? (fun p => p.1 == k)).map Prod.snd

/-- Key of the `theme` property. -/
def themeKey : List Char := "theme".toList

/-- Key of the `words` property. -/
def wordsKey : List Char := "words".toList

/-- Key of the `clues` property. -/
def cluesKey : List Char := "clues".toList

/-- Key of the `word` property of a shape-A entry. -/
def wordKey : List Char := "word".toList

/-- Key of the `clue` property of a shape-A entry. -/
def clueKey : List Char := "clue".toList

/-- `words.map(w => w.toUpperCase())` succeeds only when every element is a
string (a non-string makes `toUpperCase` throw, which the handler catches). -/
def allStrings : List Json → Option (List (List Char))
  | [] => some []
  | Json.str s :: rest => (allStrings rest).map (fun l => s :: l)
  | _ => none

/-- `Object.entries(x)`: members of an object, indexed elements of an array,
indexed characters of a string, `[]` for numbers and booleans, and a thrown
`TypeError` (`none`) for `null` (and for `undefined` at the call site). -/
def objEntries : Json → Option (List (List Char × Json))
  | Json.obj kvs => some kvs
  | Json.arr l => some (l.enum.map (fun p => ((Nat.repr p.1).toList, p.2)))
  | Json.str s => some (s.enum.map (fun p => ((Nat.repr p.1).toList, Json.str [p.2])))
  | Json.num _ => some []
  | Json.bool _ => some []
  | Json.null => none

/-- The shape-B `formattedResponse` construction of `handler.ts` (memory and
blob variants):
`theme: parsedResult.theme`,
`words: parsedResult.words.map(w => w.toUpperCase())`,
`clues: Object.fromEntries(Object.entries(parsedResult.clues).map(([w, c]) => [w.toUpperCase(), c]))`.
`none` models a thrown `TypeError` (non-object parse result, missing or
non-array `words`, non-string word, missing or null `clues`). -/
def formatPuzzle (j : Json) : Option Puzzle :=
  match j with
  | Json.obj kvs =>
    match getField kvs wordsKey with
    | some (Json.arr ws) =>
      match allStrings ws with
      | some wl =>
        match getField kvs cluesKey with
        | none => none
        | some cj =>
          match objEntries cj with
          | none => none
          | some entries =>
            some ⟨getField kvs themeKey, wl.map upperStr,
              entries.map (fun p => (upperStr p.1, some p.2))⟩
      | none => none
    | _ => none
  | _ => none

/-- One shape-A entry: `entry.word` must be a string (otherwise
`entry.word.toUpperCase()` in the reduce throws); `entry.clue` is read as-is
(possibly `undefined`). -/
def wordEntry : Json → Option (List Char × Option Json)
  | Json.obj kvs =>
    match getField kvs wordKey with
    | some (Json.str w) => some (w, getField kvs clueKey)
    | _ => none
  | _ => none

/-- All shape-A entries, failing on the first bad one. -/
def allWordEntries : List Json → Option (List (List Char × Option Json))
  | [] => some []
  | e :: rest =>
    match wordEntry e with
    | none => none
    | some p => (allWordEntries rest).map (fun l => p :: l)

/-- JS object property assignment `acc[k] = v`: update in place when the key
exists (keeping its position), append otherwise. -/
def setKey (kvs : List (List Char × Option Json)) (k : List Char) (v : Option Json) :
    List (List Char × Option Json) :=
  if kvs.any (fun p => p.1 == k) then
    kvs.map (fun p => if p.1 == k then (k, v) else p)
  else kvs ++ [(k, v)]

/-- The shape-A clues accumulator:
`words.reduce((acc, e) => { acc[e.word.toUpperCase()] = e.clue; return acc }, {})`. -/
def buildCluesA (pairs : List (List Char × Option Json)) : List (List Char × Option Json) :=
  pairs.foldl (fun acc p => setKey acc (upperStr p.1) p.2) []

/-- The shape-A `cachedResponse` construction of `part_000`:
`theme: rawResult.theme`,
`words: rawResult.words.map(e => e.word)` (note: NOT uppercased),
`clues` built by the reduce above. -/
def formatPuzzleA (j : Json) : Option Puzzle :=
  match j with
  | Json.obj kvs =>
    match getField kvs wordsKey with
    | some (Json.arr entries) =>
      match allWordEntries entries with
      | some pairs =>
        some ⟨getField kvs themeKey, pairs.map Prod.fst, buildCluesA pairs⟩
      | none => none
    | _ => none
  | _ => none

/-- The shape-B normalization pipeline of `handler.ts`:
`JSON.parse(sanitizeJSON(raw))` followed by the `formattedResponse`
construction. -/
def normalizeB (raw : List Char) : Option Puzzle :=
  (jsonParse (sanitizeJSON raw)).bind formatPuzzle

/-- The shape-A pipeline of `part_000`: `JSON.parse(content)` (no
sanitization) followed by the `cachedResponse` construction. -/
def normalizeA (raw : List Char) : Option Puzzle :=
  (jsonParse raw).bind formatPuzzleA

/-- The words/clues correspondence of spec §3: the clue keys are exactly the
uppercased forms of the words. -/
def wordsCluesMatch (p : Puzzle) : Bool :=
  p.words.all (fun w => p.clues.any (fun kv => kv.1 == upperStr w)) &&
  p.clues.all (fun kv => p.words.any (fun w => upperStr w == kv.1))

/-- Modelled from the spec (§4.4 step 4), not from the source: canonical
`words` = "uppercased, order-preserving, duplicate-removed list".  Used only
to compare the source's transform against the spec's words. -/
def dedupKeepFirst (seen : List (List Char)) : List (List Char) → List (List Char)
  | [] => []
  | x :: xs =>
    if seen.contains x then dedupKeepFirst seen xs
    else x :: dedupKeepFirst (x :: seen) xs

/-- Modelled from the spec (§4.4 step 4): the spec's canonical words
transform — uppercase, keep order, remove duplicates (first occurrence
kept). -/
def specCanonicalWords (ws : List (List Char)) : List (List Char) :=
  dedupKeepFirst [] (ws.map upperStr)

/-! ## The handlers -/

/-- The typed failure outcomes of one handler run; each constructor models
one distinct JS throw site (all of them reach the handler's `catch` and are
returned as a 500 response):
`genThrew` — the `openai.chat.completions.create` call threw;
`noContent` — variant A's `throw new Error("No content returned ...")`;
`parseFailed` — `JSON.parse` threw a `SyntaxError`;
`formatFailed` — building `formattedResponse` threw a `TypeError`;
`fetchFailed` — the blob variant's `!puzzleResponse.ok` early 500;
`putFailed` — the blob variant's `put` call threw. -/
inductive PipelineError where
  | genThrew | noContent | parseFailed | formatFailed | fetchFailed | putFailed
deriving DecidableEq

/-- A handler response: `ok p` is the 200 JSON body, `err e` the 500. -/
inductive Response where
  | ok (p : Puzzle) : Response
  | err (e : PipelineError) : Response

/-- Outcome of the external generation call: the call threw, or it returned a
completion whose `choices[0]?.message?.content` is `c` (`none` = missing). -/
inductive GenOutcome where
  | threw : GenOutcome
  | content (c : Option (List Char)) : GenOutcome

/-- External-call counters of one handler run: generation calls, blob `list`
calls, blob fetches (reads), blob `put` calls (writes). -/
structure Counts where
  genCalls : Nat
  listCalls : Nat
  reads : Nat
  writes : Nat
deriving DecidableEq

/-- The module-level memory tier of the memory variants:
`let cachedResponse: CachedResponse = null; let lastFetched: Date | null = null`. -/
structure MemState where
  cachedResponse : Option Puzzle
  lastFetched : Option Nat

/-- The calendar-day class of an instant (epoch ms): models equality of
`Date.toDateString()` values (the source compares them with `===`; we use the
UTC day index, see the header note) and the blob variant's
`toISOString().slice(0, 10)` day key. -/
def toDateStringDay (t : Nat) : Nat := t / 86400000

/-- Whether the memory-hit condition
`cachedResponse && lastFetched && now.toDateString() === lastFetched.toDateString()`
holds. -/
def memHit (st : MemState) (now : Nat) : Bool :=
  match st.cachedResponse, st.lastFetched with
  | some _, some d => toDateStringDay now == toDateStringDay d
  | _, _ => false

/-- The generation-and-normalization part of the shape-B memory variant
(everything inside its `try` after the cache check). -/
def runGenMem (st : MemState) (now : Nat) (gen : GenOutcome) :
    Response × MemState × Counts :=
  match gen with
  | GenOutcome.threw => (Response.err PipelineError.genThrew, st, ⟨1, 0, 0, 0⟩)
  | GenOutcome.content c =>
    match jsonParse (sanitizeJSON (c.getD [])) with
    | none => (Response.err PipelineError.parseFailed, st, ⟨1, 0, 0, 0⟩)
    | some j =>
      match formatPuzzle j with
      | none => (Response.err PipelineError.formatFailed, st, ⟨1, 0, 0, 0⟩)
      | some p => (Response.ok p, ⟨some p, some now⟩, ⟨1, 0, 0, 0⟩)

/-- The shape-B memory-cache handler (first variant of `handler.ts`): check
the memory tier, otherwise generate, sanitize, parse, format, cache and
return; any throw is caught and returned as a 500 without touching the
cache.  Result: (response, memory state after, external-call counts). -/
def handlerMem (st : MemState) (now : Nat) (gen : GenOutcome) :
    Response × MemState × Counts :=
  match st.cachedResponse, st.lastFetched with
  | some p, some d =>
    if toDateStringDay now == toDateStringDay d then (Response.ok p, st, ⟨0, 0, 0, 0⟩)
    else runGenMem st now gen
  | _, _ => runGenMem st now gen

/-- The generation part of the shape-A variant (`part_000`): a falsy content
(`null`, `undefined` or `""`) hits `if (!content) throw new Error(...)`;
otherwise `JSON.parse(content)` directly (no sanitization), then the shape-A
record construction. -/
def runGenA (st : MemState) (now : Nat) (gen : GenOutcome) :
    Response × MemState × Counts :=
  match gen with
  | GenOutcome.threw => (Response.err PipelineError.genThrew, st, ⟨1, 0, 0, 0⟩)
  | GenOutcome.content c =>
    match c with
    | none => (Response.err PipelineError.noContent, st, ⟨1, 0, 0, 0⟩)
    | some [] => (Response.err PipelineError.noContent, st, ⟨1, 0, 0, 0⟩)
    | some raw =>
      match jsonParse raw with
      | none => (Response.err PipelineError.parseFailed, st, ⟨1, 0, 0, 0⟩)
      | some j =>
        match formatPuzzleA j with
        | none => (Response.err PipelineError.formatFailed, st, ⟨1, 0, 0, 0⟩)
        | some p => (Response.ok p, ⟨some p, some now⟩, ⟨1, 0, 0, 0⟩)

/-- The shape-A memory-cache handler (`part_000` and the third variant of
`handler.ts`). -/
def handlerA (st : MemState) (now : Nat) (gen : GenOutcome) :
    Response × MemState × Counts :=
  match st.cachedResponse, st.lastFetched with
  | some p, some d =>
    if toDateStringDay now == toDateStringDay d then (Response.ok p, st, ⟨0, 0, 0, 0⟩)
    else runGenA st now gen
  | _, _ => runGenA st now gen

/-- The blob variant's durable-store state: one stored puzzle per day key.
The pathname `puzzle/${today}/puzzle.json` is injective in the day, so the
store is keyed by the day index; `put` prepends, and `find?` takes the newest
entry for a key, modelling last-write-wins overwriting of the same path. -/
def BlobStore : Type := List (Nat × Puzzle)

/-- The blob-variant handler (second variant of `handler.ts`): `list` the
prefix for today's key; on a hit, fetch the stored puzzle and return it (500
if the fetch response is not ok); on a miss, generate, sanitize, parse,
format, `put` the result (a throwing `put` reaches the `catch` and yields a
500), and return it.  `fetchOk`/`putOk` model the success of the two
fallible store operations.  Result: (response, store after, counts). -/
def handlerBlob (store : BlobStore) (now : Nat) (gen : GenOutcome)
    (fetchOk : Bool) (putOk : Bool) : Response × BlobStore × Counts :=
  match List.find? (fun x => x.1 == toDateStringDay now) store with
  | some q =>
    if fetchOk then (Response.ok q.2, store, ⟨0, 1, 1, 0⟩)
    else (Response.err PipelineError.fetchFailed, store, ⟨0, 1, 1, 0⟩)
  | none =>
    match gen with
    | GenOutcome.threw => (Response.err PipelineError.genThrew, store, ⟨1, 1, 0, 0⟩)
    | GenOutcome.content c =>
      match jsonParse (sanitizeJSON (c.getD [])) with
      | none => (Response.err PipelineError.parseFailed, store, ⟨1, 1, 0, 0⟩)
      | some j =>
        match formatPuzzle j with
        | none => (Response.err PipelineError.formatFailed, store, ⟨1, 1, 0, 0⟩)
        | some p =>
          if putOk then (Response.ok p, (toDateStringDay now, p) :: store, ⟨1, 1, 0, 1⟩)
          else (Response.err PipelineError.putFailed, store, ⟨1, 1, 0, 1⟩)

/-! ## Lemmas about the replacement scan -/

/-- The fuel of `removeAllFuel` is irrelevant as long as it covers the input
length. -/
lemma removeAllFuel_congr (pat : List Char) :
    ∀ (f1 f2 : Nat) (s : List Char), s.length ≤ f1 → s.length ≤ f2 →
      removeAllFuel pat f1 s = removeAllFuel pat f2 s := by
  intro f1
  induction f1 with
  | zero =>
    intro f2 s h1 _
    have hs : s = [] := List.length_eq_zero.mp (Nat.le_zero.mp h1)
    subst hs
    cases f2 <;> rfl
  | succ f ih =>
    intro f2 s h1 h2
    cases s with
    | nil => cases f2 <;> rfl
    | cons c rest =>
      cases f2 with
      | zero => simp at h2
      | succ g =>
        simp only [removeAllFuel]
        by_cases hp : pat.isPrefixOf (c :: rest) ∧ pat ≠ []
        · rw [if_pos hp, if_pos hp]
          apply ih
          · have := List.length_drop (pat.length - 1) rest
            simp only [List.length_cons] at h1
            omega
          · have := List.length_drop (pat.length - 1) rest
            simp only [List.length_cons] at h2
            omega
        · rw [if_neg hp, if_neg hp]
          simp only [List.length_cons] at h1 h2
          rw [ih g rest (by omega) (by omega)]

/-- Scan of a non-matching head: the character is kept. -/
lemma removeAll_cons_neg (pat : List Char) (c : Char) (rest : List Char)
    (h : ¬ (pat.isPrefixOf (c :: rest) ∧ pat ≠ [])) :
    removeAll pat (c :: rest) = c :: removeAll pat rest := by
  show removeAllFuel pat (c :: rest).length (c :: rest) = _
  simp only [List.length_cons, removeAllFuel]
  rw [if_neg h]
  rfl

/-- A character outside the pattern is always kept by the scan. -/
lemma removeAll_cons_notMem (pat : List Char) (c : Char) (b : List Char)
    (hc : c ∉ pat) : removeAll pat (c :: b) = c :: removeAll pat b := by
  apply removeAll_cons_neg
  rintro ⟨hp, hne⟩
  cases pat with
  | nil => exact hne rfl
  | cons p pt =>
    have := List.isPrefixOf_iff_prefix.mp hp
    rw [List.cons_prefix_cons] at this
    exact hc (this.1 ▸ List.mem_cons_self p pt)

/-- Scan of a matching position: the match is deleted and the scan continues
after it. -/
lemma removeAll_consume (pat s : List Char) (hne : pat ≠ []) (h : pat <+: s) :
    removeAll pat s = removeAll pat (s.drop pat.length) := by
  cases s with
  | nil =>
    have : pat = [] := List.prefix_nil.mp h
    exact absurd this hne
  | cons c rest =>
    show removeAllFuel pat (c :: rest).length (c :: rest) = _
    simp only [List.length_cons, removeAllFuel]
    rw [if_pos ⟨List.isPrefixOf_iff_prefix.mpr h, hne⟩]
    have hd : (c :: rest).drop pat.length = rest.drop (pat.length - 1) := by
      cases pat with
      | nil => exact absurd rfl hne
      | cons p pt => simp
    rw [hd]
    exact removeAllFuel_congr pat rest.length (rest.drop (pat.length - 1)).length _
      (by simp [List.length_drop]) le_rfl

/-- Deleting a leading occurrence of the pattern itself. -/
lemma removeAll_dropSelf (pat X : List Char) (hne : pat ≠ []) :
    removeAll pat (pat ++ X) = removeAll pat X := by
  rw [removeAll_consume pat _ hne (List.prefix_append _ _), List.drop_left]

/-- If the pattern avoids a separator character, a prefix of the separated
concatenation is a prefix of the left part. -/
lemma prefix_split (pat a b : List Char) (c : Char) (hc : c ∉ pat)
    (h : pat <+: a ++ c :: b) : pat <+: a := by
  obtain ⟨u, hu⟩ := h
  rcases List.append_eq_append_iff.mp hu with ⟨a', ha, _⟩ | ⟨c', hp, hb⟩
  · exact ha ▸ List.prefix_append pat a'
  · cases c' with
    | nil => rw [List.append_nil] at hp; exact hp ▸ List.prefix_refl a
    | cons d c'' =>
      have hd : d = c := by
        have : c :: b = d :: (c'' ++ u) := hb
        injection this with h1 _
        exact h1.symm
      exact absurd (hp ▸ List.mem_append.mpr (Or.inr (by simp [hd]))) hc

/-- The scan distributes over a concatenation separated by a character that
does not occur in the pattern (no match can straddle the separator). -/
lemma removeAll_append_aux (pat : List Char) (hne : pat ≠ []) (c : Char) (hc : c ∉ pat) :
    ∀ (n : Nat) (a b : List Char), a.length ≤ n →
      removeAll pat (a ++ c :: b) = removeAll pat a ++ c :: removeAll pat b := by
  intro n
  induction n with
  | zero =>
    intro a b ha
    have : a = [] := List.length_eq_zero.mp (Nat.le_zero.mp ha)
    subst this
    simp only [List.nil_append]
    rw [removeAll_cons_notMem pat c b hc]
    rfl
  | succ n ih =>
    intro a b ha
    cases a with
    | nil =>
      simp only [List.nil_append]
      rw [removeAll_cons_notMem pat c b hc]
      rfl
    | cons x a' =>
      by_cases hp : pat <+: (x :: a') ++ c :: b
      · have hpa : pat <+: x :: a' := prefix_split pat (x :: a') b c hc hp
        have hlen : pat.length ≤ (x :: a').length := hpa.length_le
        rw [removeAll_consume pat _ hne hp, removeAll_consume pat _ hne hpa,
          List.drop_append_of_le_length hlen]
        apply ih
        have hp1 : 1 ≤ pat.length := by
          cases pat with
          | nil => exact absurd rfl hne
          | cons p pt => simp
        simp only [List.length_cons] at ha ⊢
        simp only [List.length_drop, List.length_cons]
        omega
      · have hpa : ¬ pat <+: x :: a' := fun hcon =>
          hp (hcon.trans ((x :: a').prefix_append (c :: b)))
        rw [List.cons_append]
        rw [removeAll_cons_neg pat x (a' ++ c :: b)
            (fun h => hp (List.isPrefixOf_iff_prefix.mp h.1)),
          removeAll_cons_neg pat x a'
            (fun h => hpa (List.isPrefixOf_iff_prefix.mp h.1))]
        rw [ih a' b (by simp only [List.length_cons] at ha; omega)]
        rfl

/-- `removeAll` over a separated concatenation, separator not in the
pattern. -/
lemma removeAll_append (pat : List Char) (hne : pat ≠ []) (c : Char) (hc : c ∉ pat)
    (a b : List Char) :
    removeAll pat (a ++ c :: b) = removeAll pat a ++ c :: removeAll pat b :=
  removeAll_append_aux pat hne c hc a.length a b le_rfl

/-! ## Lemmas about `trimChars` -/

/-- Trimming ignores one leading whitespace character. -/
lemma trimChars_cons_ws (c : Char) (l : List Char) (h : isWS c = true) :
    trimChars (c :: l) = trimChars l := by
  unfold trimChars
  rw [List.dropWhile_cons_of_pos h]

/-- Trimming ignores one trailing whitespace character. -/
lemma trimChars_append_ws (l : List Char) (c : Char) (h : isWS c = true) :
    trimChars (l ++ [c]) = trimChars l := by
  unfold trimChars
  rw [List.dropWhile_append]
  by_cases hd : (List.dropWhile isWS l).isEmpty
  · rw [if_pos hd]
    have hl : List.dropWhile isWS l = [] := by
      cases hli : List.dropWhile isWS l with
      | nil => rfl
      | cons x xs => rw [hli] at hd; simp at hd
    rw [hl]
    simp [List.dropWhile, h]
  · rw [if_neg hd]
    rw [List.reverse_append]
    simp only [List.reverse_cons, List.reverse_nil, List.nil_append, List.singleton_append]
    rw [List.dropWhile_cons_of_pos h]

/-- The trimmed string is a contiguous part of the original. -/
lemma trimChars_infix (l : List Char) : trimChars l <:+: l := by
  have h1 : (l.dropWhile isWS) <:+ l := List.dropWhile_suffix _
  have h2 : ((l.dropWhile isWS).reverse.dropWhile isWS) <:+ (l.dropWhile isWS).reverse :=
    List.dropWhile_suffix _
  have h3 : ((l.dropWhile isWS).reverse.dropWhile isWS).reverse <+: (l.dropWhile isWS) := by
    rw [← List.reverse_suffix]
    simpa using h2
  exact (h3.isInfix).trans h1.isInfix

/-! ## No triple backtick survives the second replacement (for C10) -/

/-- Number of leading backticks. -/
def leadTicks : List Char → Nat
  | [] => 0
  | c :: r => if c = bt then leadTicks r + 1 else 0

/-- A run of `k` backticks is a prefix exactly when at least `k` leading
backticks are present. -/
lemma replicate_bt_prefix_iff : ∀ (k : Nat) (l : List Char),
    List.replicate k bt <+: l ↔ k ≤ leadTicks l := by
  intro k
  induction k with
  | zero => intro l; simp
  | succ k ih =>
    intro l
    cases l with
    | nil =>
      simp only [List.replicate_succ, leadTicks]
      constructor
      · intro h
        have := h.length_le
        simp at this
      · omega
    | cons c r =>
      simp only [List.replicate_succ, List.cons_prefix_cons, leadTicks]
      constructor
      · rintro ⟨hb, hr⟩
        rw [if_pos hb.symm]
        exact Nat.succ_le_succ ((ih r).mp hr)
      · intro h
        by_cases hb : c = bt
        · rw [if_pos hb] at h
          exact ⟨hb.symm, (ih r).mpr (Nat.le_of_succ_le_succ h)⟩
        · rw [if_neg hb] at h
          omega

/-- Dropping a leading run of backticks subtracts from the count. -/
lemma leadTicks_drop : ∀ (k : Nat) (l : List Char), List.replicate k bt <+: l →
    leadTicks (l.drop k) = leadTicks l - k := by
  intro k
  induction k with
  | zero => intro l _; simp
  | succ k ih =>
    intro l h
    cases l with
    | nil =>
      have := h.length_le
      simp at this
    | cons c r =>
      rw [List.replicate_succ, List.cons_prefix_cons] at h
      have hc : c = bt := h.1.symm
      simp only [List.drop_succ_cons, leadTicks, if_pos hc]
      rw [ih r h.2]
      have := (replicate_bt_prefix_iff k r).mp h.2
      omega

/-- After `replace(/```/g, "")` the result contains no three consecutive
backticks: a leftover maximal backtick run has length at most two, and runs
cannot merge across deleted matches because matches consist of backticks
only.  Stated with the leading-backtick bound needed for the induction. -/
lemma removeTicks_inv : ∀ (n : Nat) (s : List Char), s.length ≤ n →
    (¬ ticks <:+: removeAll ticks s) ∧ leadTicks (removeAll ticks s) ≤ leadTicks s := by
  intro n
  induction n with
  | zero =>
    intro s hs
    have : s = [] := List.length_eq_zero.mp (Nat.le_zero.mp hs)
    subst this
    constructor
    · intro h
      have : ticks = [] := List.eq_nil_of_infix_nil h
      simp [ticks] at this
    · exact le_rfl
  | succ n ih =>
    intro s hs
    by_cases hp : ticks <+: s
    · rw [removeAll_consume ticks s (by decide) hp]
      have hlen : (s.drop ticks.length).length ≤ n := by
        have h3 : 3 ≤ s.length := by simpa [ticks] using hp.length_le
        simp only [List.length_drop]
        simp only [ticks, List.length_cons, List.length_nil]
        omega
      obtain ⟨ih1, ih2⟩ := ih (s.drop ticks.length) hlen
      refine ⟨ih1, ih2.trans ?_⟩
      have hrep : List.replicate 3 bt <+: s := by
        simpa [ticks, List.replicate] using hp
      rw [show ticks.length = 3 from rfl, leadTicks_drop 3 s hrep]
      omega
    · cases s with
      | nil =>
        constructor
        · intro h
          have : ticks = [] := List.eq_nil_of_infix_nil h
          simp [ticks] at this
        · exact le_rfl
      | cons c rest =>
        have hni : ¬ (ticks.isPrefixOf (c :: rest) ∧ ticks ≠ []) :=
          fun h => hp (List.isPrefixOf_iff_prefix.mp h.1)
        rw [removeAll_cons_neg ticks c rest hni]
        have hrest : rest.length ≤ n := by
          simp only [List.length_cons] at hs
          omega
        obtain ⟨ih1, ih2⟩ := ih rest hrest
        have hbound : ¬ 3 ≤ leadTicks (c :: rest) := by
          intro hge
          exact hp ((replicate_bt_prefix_iff 3 (c :: rest)).mpr hge)
        constructor
        · intro hinf
          rcases List.infix_cons_iff.mp hinf with hpre | hinf'
          · have h3 : 3 ≤ leadTicks (c :: removeAll ticks rest) :=
              (replicate_bt_prefix_iff 3 _).mp hpre
            by_cases hcb : c = bt
            · simp only [leadTicks, if_pos hcb] at h3 hbound
              omega
            · simp only [leadTicks, if_neg hcb] at h3
              omega
          · exact ih1 hinf'
        · by_cases hcb : c = bt
          · simp only [leadTicks, if_pos hcb]
            omega
          · simp only [leadTicks, if_neg hcb]
            omega

/-! ## Claims C7 and C10: sanitization -/

/-- Claim C7 (corrected): sanitizing a text wrapped in code fences — a
leading `fenceJson` (```json) or bare `ticks` (```) followed by a
newline, and a trailing newline plus ``` — yields exactly the sanitization of
the inner text.  (The original claim allowed an arbitrary language tag; only
the `json` tag is stripped, see the counterexample.) -/
theorem sanitizeJSON_unwraps_fences (t : List Char) :
    sanitizeJSON (fenceJson ++ '\n' :: (t ++ '\n' :: ticks)) = sanitizeJSON t ∧
    sanitizeJSON (ticks ++ '\n' :: (t ++ '\n' :: ticks)) = sanitizeJSON t := by
  have hnf : ('\n' : Char) ∉ fenceJson := by decide
  have hnt : ('\n' : Char) ∉ ticks := by decide
  have hfne : fenceJson ≠ [] := by decide
  have htne : ticks ≠ [] := by decide
  have e1 : removeAll fenceJson ticks = ticks := rfl
  have e2 : removeAll ticks ticks = [] := rfl
  constructor
  · show trimChars (removeAll ticks (removeAll fenceJson _)) = _
    rw [removeAll_dropSelf fenceJson _ hfne,
      removeAll_cons_notMem fenceJson '\n' _ hnf,
      removeAll_append fenceJson hfne '\n' hnf t ticks, e1,
      removeAll_cons_notMem ticks '\n' _ hnt,
      removeAll_append ticks htne '\n' hnt _ ticks, e2,
      trimChars_cons_ws '\n' _ (by decide),
      show removeAll ticks (removeAll fenceJson t) ++ '\n' :: ([] : List Char) =
        removeAll ticks (removeAll fenceJson t) ++ ['\n'] from rfl,
      trimChars_append_ws _ '\n' (by decide)]
    rfl
  · show trimChars (removeAll ticks (removeAll fenceJson _)) = _
    rw [removeAll_append fenceJson hfne '\n' hnf ticks (t ++ '\n' :: ticks), e1,
      removeAll_append fenceJson hfne '\n' hnf t ticks, e1,
      removeAll_dropSelf ticks _ htne,
      removeAll_cons_notMem ticks '\n' _ hnt,
      removeAll_append ticks htne '\n' hnt _ ticks, e2,
      trimChars_cons_ws '\n' _ (by decide),
      show removeAll ticks (removeAll fenceJson t) ++ '\n' :: ([] : List Char) =
        removeAll ticks (removeAll fenceJson t) ++ ['\n'] from rfl,
      trimChars_append_ws _ '\n' (by decide)]
    rfl

/-- Claim C7 counterexample: with the language tag `js` instead of `json`,
the fence-wrapped text `\x7b\x7d` does not sanitize to the same result as
the bare text — the tag and inner newline survive (`js\n\x7b\x7d`), so the
claim "with an optional language tag" is false as stated. -/
theorem sanitizeJSON_language_tag_counterexample :
    sanitizeJSON [bt, bt, bt, 'j', 's', '\n', '\x7b', '\x7d', '\n', bt, bt, bt] ≠
      sanitizeJSON ['\x7b', '\x7d'] := by decide

/-- Claim C10 (confirmed): for every input, the sanitized output contains no
occurrence of ``` (and hence none of ```json) anywhere — the replacement is
global, not limited to enclosing fence markers, and deletions never create a
new triple-backtick (a leftover backtick run has length at most two). -/
theorem sanitizeJSON_no_fence_left (s : List Char) :
    ¬ ticks <:+: sanitizeJSON s ∧ ¬ fenceJson <:+: sanitizeJSON s := by
  have key := (removeTicks_inv (removeAll fenceJson s).length (removeAll fenceJson s) le_rfl).1
  have htrim := trimChars_infix (removeAll ticks (removeAll fenceJson s))
  have habs : ¬ ticks <:+: sanitizeJSON s := by
    intro h
    exact key (List.IsInfix.trans h htrim)
  refine ⟨habs, fun h => habs ?_⟩
  exact (List.IsPrefix.isInfix ⟨['j', 's', 'o', 'n'], rfl⟩).trans h

/-! ## Shape lemmas for the normalizers (claims C1 and C2) -/

/-- A well-shaped shape-B parse result: a `theme`, a `words` array of
strings, and a `clues` object. -/
def mkObjB (th : Json) (ws : List (List Char)) (kvs : List (List Char × Json)) : Json :=
  Json.obj [(themeKey, th), (wordsKey, Json.arr (ws.map Json.str)), (cluesKey, Json.obj kvs)]

/-- A well-shaped shape-A entry `\x7b word, clue \x7d`. -/
def entryObjA (p : List Char × Json) : Json :=
  Json.obj [(wordKey, Json.str p.1), (clueKey, p.2)]

/-- A well-shaped shape-A parse result. -/
def mkObjA (th : Json) (pairs : List (List Char × Json)) : Json :=
  Json.obj [(themeKey, th), (wordsKey, Json.arr (pairs.map entryObjA))]

/-- `allStrings` succeeds on a list of string values. -/
lemma allStrings_map (ws : List (List Char)) : allStrings (ws.map Json.str) = some ws := by
  induction ws with
  | nil => rfl
  | cons w ws ih => simp [allStrings, ih]

/-- A well-shaped shape-A entry is read back as its word/clue pair. -/
lemma wordEntry_entryObjA (p : List Char × Json) :
    wordEntry (entryObjA p) = some (p.1, some p.2) := rfl

/-- `allWordEntries` succeeds on well-shaped shape-A entries. -/
lemma allWordEntries_map (pairs : List (List Char × Json)) :
    allWordEntries (pairs.map entryObjA) = some (pairs.map (fun p => (p.1, some p.2))) := by
  induction pairs with
  | nil => rfl
  | cons p ps ih => simp [allWordEntries, wordEntry_entryObjA, ih]

/-- What the shape-B `formattedResponse` construction computes on any
well-shaped input: words uppercased in order with duplicates retained, clue
keys uppercased, clue values untouched — and no words/clues cross-check. -/
lemma formatPuzzle_mkObjB (th : Json) (ws : List (List Char))
    (kvs : List (List Char × Json)) :
    formatPuzzle (mkObjB th ws kvs) =
      some ⟨some th, ws.map upperStr, kvs.map (fun p => (upperStr p.1, some p.2))⟩ := by
  show (match allStrings (ws.map Json.str) with
    | some wl => some (⟨some th, wl.map upperStr,
        kvs.map (fun (p : List Char × Json) => (upperStr p.1, some p.2))⟩ : Puzzle)
    | none => none) = _
  rw [allStrings_map ws]

/-- What the shape-A `cachedResponse` construction computes on any
well-shaped input: words kept verbatim (not uppercased, duplicates
retained), clue keys uppercased by the reduce — and no cross-check. -/
lemma formatPuzzleA_mkObjA (th : Json) (pairs : List (List Char × Json)) :
    formatPuzzleA (mkObjA th pairs) =
      some ⟨some th, pairs.map Prod.fst,
        buildCluesA (pairs.map (fun p => (p.1, some p.2)))⟩ := by
  show (match allWordEntries (pairs.map entryObjA) with
    | some prs => some (⟨some th, prs.map Prod.fst, buildCluesA prs⟩ : Puzzle)
    | none => none) = _
  rw [allWordEntries_map pairs]
  simp

/-! ## Handler control-flow lemmas -/

/-- On a cache miss the memory handler runs the generation pipeline. -/
lemma handlerMem_miss (st : MemState) (now : Nat) (gen : GenOutcome)
    (h : memHit st now = false) : handlerMem st now gen = runGenMem st now gen := by
  obtain ⟨cr, lf⟩ := st
  match cr, lf with
  | none, _ => rfl
  | some p, none => rfl
  | some p, some d =>
    simp only [memHit] at h
    simp only [handlerMem]
    rw [if_neg (by simp [h])]

/-- On a cache miss the shape-A handler runs its generation pipeline. -/
lemma handlerA_miss (st : MemState) (now : Nat) (gen : GenOutcome)
    (h : memHit st now = false) : handlerA st now gen = runGenA st now gen := by
  obtain ⟨cr, lf⟩ := st
  match cr, lf with
  | none, _ => rfl
  | some p, none => rfl
  | some p, some d =>
    simp only [memHit] at h
    simp only [handlerA]
    rw [if_neg (by simp [h])]

/-- Pipeline equation: the external call threw. -/
lemma runGenMem_threw (st : MemState) (now : Nat) :
    runGenMem st now GenOutcome.threw =
      (Response.err PipelineError.genThrew, st, ⟨1, 0, 0, 0⟩) := rfl

/-- Pipeline equation: unparseable sanitized content. -/
lemma runGenMem_parseFail (st : MemState) (now : Nat) (c : Option (List Char))
    (hj : jsonParse (sanitizeJSON (c.getD [])) = none) :
    runGenMem st now (GenOutcome.content c) =
      (Response.err PipelineError.parseFailed, st, ⟨1, 0, 0, 0⟩) := by
  simp only [runGenMem, hj]

/-- Pipeline equation: parse succeeded, record construction threw. -/
lemma runGenMem_formatFail (st : MemState) (now : Nat) (c : Option (List Char)) (j : Json)
    (hj : jsonParse (sanitizeJSON (c.getD [])) = some j) (hf : formatPuzzle j = none) :
    runGenMem st now (GenOutcome.content c) =
      (Response.err PipelineError.formatFailed, st, ⟨1, 0, 0, 0⟩) := by
  simp only [runGenMem, hj, hf]

/-- Pipeline equation: success caches the puzzle together with `now`. -/
lemma runGenMem_ok (st : MemState) (now : Nat) (c : Option (List Char)) (j : Json)
    (p : Puzzle) (hj : jsonParse (sanitizeJSON (c.getD [])) = some j)
    (hf : formatPuzzle j = some p) :
    runGenMem st now (GenOutcome.content c) =
      (Response.ok p, ⟨some p, some now⟩, ⟨1, 0, 0, 0⟩) := by
  simp only [runGenMem, hj, hf]

/-- Shape-A pipeline equations: throw, missing and empty content. -/
lemma runGenA_threw (st : MemState) (now : Nat) :
    runGenA st now GenOutcome.threw =
      (Response.err PipelineError.genThrew, st, ⟨1, 0, 0, 0⟩) := rfl

/-- Shape-A pipeline equation: `null`/`undefined` content hits the throw. -/
lemma runGenA_noContent (st : MemState) (now : Nat) :
    runGenA st now (GenOutcome.content none) =
      (Response.err PipelineError.noContent, st, ⟨1, 0, 0, 0⟩) := rfl

/-- Shape-A pipeline equation: empty content is falsy and hits the throw. -/
lemma runGenA_emptyContent (st : MemState) (now : Nat) :
    runGenA st now (GenOutcome.content (some [])) =
      (Response.err PipelineError.noContent, st, ⟨1, 0, 0, 0⟩) := rfl

/-- Shape-A pipeline equation: unparseable content. -/
lemma runGenA_parseFail (st : MemState) (now : Nat) (x : Char) (raw : List Char)
    (hj : jsonParse (x :: raw) = none) :
    runGenA st now (GenOutcome.content (some (x :: raw))) =
      (Response.err PipelineError.parseFailed, st, ⟨1, 0, 0, 0⟩) := by
  simp only [runGenA, hj]

/-- Shape-A pipeline equation: record construction threw. -/
lemma runGenA_formatFail (st : MemState) (now : Nat) (x : Char) (raw : List Char) (j : Json)
    (hj : jsonParse (x :: raw) = some j) (hf : formatPuzzleA j = none) :
    runGenA st now (GenOutcome.content (some (x :: raw))) =
      (Response.err PipelineError.formatFailed, st, ⟨1, 0, 0, 0⟩) := by
  simp only [runGenA, hj, hf]

/-- Shape-A pipeline equation: success caches the puzzle and `now`. -/
lemma runGenA_ok (st : MemState) (now : Nat) (x : Char) (raw : List Char) (j : Json)
    (p : Puzzle) (hj : jsonParse (x :: raw) = some j) (hf : formatPuzzleA j = some p) :
    runGenA st now (GenOutcome.content (some (x :: raw))) =
      (Response.ok p, ⟨some p, some now⟩, ⟨1, 0, 0, 0⟩) := by
  simp only [runGenA, hj, hf]

/-- The shape-B generation pipeline either leaves the cache untouched or
fills both fields with the new puzzle and `now`. -/
lemma runGenMem_state_cases (st : MemState) (now : Nat) (gen : GenOutcome) :
    (runGenMem st now gen).2.1 = st ∨
      ∃ p, (runGenMem st now gen).2.1 = (⟨some p, some now⟩ : MemState) := by
  cases gen with
  | threw => left; rw [runGenMem_threw]
  | content c =>
    rcases hj : jsonParse (sanitizeJSON (c.getD [])) with _ | j
    · left; rw [runGenMem_parseFail st now c hj]
    · rcases hf : formatPuzzle j with _ | p
      · left; rw [runGenMem_formatFail st now c j hj hf]
      · right; exact ⟨p, by rw [runGenMem_ok st now c j p hj hf]⟩

/-- The shape-A generation pipeline either leaves the cache untouched or
fills both fields. -/
lemma runGenA_state_cases (st : MemState) (now : Nat) (gen : GenOutcome) :
    (runGenA st now gen).2.1 = st ∨
      ∃ p, (runGenA st now gen).2.1 = (⟨some p, some now⟩ : MemState) := by
  cases gen with
  | threw => left; rw [runGenA_threw]
  | content c =>
    match c with
    | none => left; rw [runGenA_noContent]
    | some [] => left; rw [runGenA_emptyContent]
    | some (x :: raw) =>
      rcases hj : jsonParse (x :: raw) with _ | j
      · left; rw [runGenA_parseFail st now x raw hj]
      · rcases hf : formatPuzzleA j with _ | p
        · left; rw [runGenA_formatFail st now x raw j hj hf]
        · right; exact ⟨p, by rw [runGenA_ok st now x raw j p hj hf]⟩

/-- The memory handler either returns the cached state or runs the pipeline. -/
lemma handlerMem_state_cases (st : MemState) (now : Nat) (gen : GenOutcome) :
    (handlerMem st now gen).2.1 = st ∨
      ∃ p, (handlerMem st now gen).2.1 = (⟨some p, some now⟩ : MemState) := by
  by_cases h : memHit st now = false
  · rw [handlerMem_miss st now gen h]
    exact runGenMem_state_cases st now gen
  · obtain ⟨cr, lf⟩ := st
    match cr, lf with
    | none, lf => simp [memHit] at h
    | some p, none => simp [memHit] at h
    | some p, some d =>
      simp only [memHit] at h
      left
      simp only [handlerMem]
      rw [if_pos (by revert h; cases toDateStringDay now == toDateStringDay d <;> simp)]

/-- The shape-A handler either returns the cached state or runs the
pipeline. -/
lemma handlerA_state_cases (st : MemState) (now : Nat) (gen : GenOutcome) :
    (handlerA st now gen).2.1 = st ∨
      ∃ p, (handlerA st now gen).2.1 = (⟨some p, some now⟩ : MemState) := by
  by_cases h : memHit st now = false
  · rw [handlerA_miss st now gen h]
    exact runGenA_state_cases st now gen
  · obtain ⟨cr, lf⟩ := st
    match cr, lf with
    | none, lf => simp [memHit] at h
    | some p, none => simp [memHit] at h
    | some p, some d =>
      simp only [memHit] at h
      left
      simp only [handlerA]
      rw [if_pos (by revert h; cases toDateStringDay now == toDateStringDay d <;> simp)]

/-- An erroring pipeline run leaves the cache untouched. -/
lemma runGenMem_err (st : MemState) (now : Nat) (gen : GenOutcome) (e : PipelineError)
    (h : (runGenMem st now gen).1 = Response.err e) : (runGenMem st now gen).2.1 = st := by
  cases gen with
  | threw => rw [runGenMem_threw]
  | content c =>
    rcases hj : jsonParse (sanitizeJSON (c.getD [])) with _ | j
    · rw [runGenMem_parseFail st now c hj]
    · rcases hf : formatPuzzle j with _ | p
      · rw [runGenMem_formatFail st now c j hj hf]
      · rw [runGenMem_ok st now c j p hj hf] at h
        exact absurd h (by simp)

/-- An erroring memory-handler run leaves the cache untouched. -/
lemma handlerMem_err (st : MemState) (now : Nat) (gen : GenOutcome) (e : PipelineError)
    (h : (handlerMem st now gen).1 = Response.err e) : (handlerMem st now gen).2.1 = st := by
  by_cases hm : memHit st now = false
  · rw [handlerMem_miss st now gen hm] at h ⊢
    exact runGenMem_err st now gen e h
  · obtain ⟨cr, lf⟩ := st
    match cr, lf with
    | none, lf => simp [memHit] at hm
    | some p, none => simp [memHit] at hm
    | some p, some d =>
      simp only [memHit] at hm
      have hd : (toDateStringDay now == toDateStringDay d) = true := by
        revert hm; cases toDateStringDay now == toDateStringDay d <;> simp
      simp only [handlerMem, if_pos hd] at h
      exact absurd h (by simp)

/-- Blob equation: durable hit with a succeeding fetch. -/
lemma handlerBlob_hit (store : BlobStore) (now : Nat) (gen : GenOutcome) (pOk : Bool)
    (q : Nat × Puzzle) (h : List.find? (fun x => x.1 == toDateStringDay now) store = some q) :
    handlerBlob store now gen true pOk = (Response.ok q.2, store, ⟨0, 1, 1, 0⟩) := by
  simp only [handlerBlob, h]
  rfl

/-- Blob equation: durable hit with a failing fetch. -/
lemma handlerBlob_hitFetchFail (store : BlobStore) (now : Nat) (gen : GenOutcome) (pOk : Bool)
    (q : Nat × Puzzle) (h : List.find? (fun x => x.1 == toDateStringDay now) store = some q) :
    handlerBlob store now gen false pOk =
      (Response.err PipelineError.fetchFailed, store, ⟨0, 1, 1, 0⟩) := by
  simp only [handlerBlob, h]
  rfl

/-- Blob equation: miss, generation call threw. -/
lemma handlerBlob_missThrew (store : BlobStore) (now : Nat) (fOk pOk : Bool)
    (h : List.find? (fun x => x.1 == toDateStringDay now) store = none) :
    handlerBlob store now GenOutcome.threw fOk pOk =
      (Response.err PipelineError.genThrew, store, ⟨1, 1, 0, 0⟩) := by
  simp only [handlerBlob, h]

/-- Blob equation: miss, unparseable output. -/
lemma handlerBlob_missParseFail (store : BlobStore) (now : Nat) (c : Option (List Char))
    (fOk pOk : Bool) (h : List.find? (fun x => x.1 == toDateStringDay now) store = none)
    (hj : jsonParse (sanitizeJSON (c.getD [])) = none) :
    handlerBlob store now (GenOutcome.content c) fOk pOk =
      (Response.err PipelineError.parseFailed, store, ⟨1, 1, 0, 0⟩) := by
  simp only [handlerBlob, h, hj]

/-- Blob equation: miss, record construction threw. -/
lemma handlerBlob_missFormatFail (store : BlobStore) (now : Nat) (c : Option (List Char))
    (j : Json) (fOk pOk : Bool)
    (h : List.find? (fun x => x.1 == toDateStringDay now) store = none)
    (hj : jsonParse (sanitizeJSON (c.getD [])) = some j) (hf : formatPuzzle j = none) :
    handlerBlob store now (GenOutcome.content c) fOk pOk =
      (Response.err PipelineError.formatFailed, store, ⟨1, 1, 0, 0⟩) := by
  simp only [handlerBlob, h, hj, hf]

/-- Blob equation: miss, good puzzle, failing `put`: the error reaches the
catch and the store is unchanged. -/
lemma handlerBlob_missPutFail (store : BlobStore) (now : Nat) (c : Option (List Char))
    (j : Json) (p : Puzzle) (fOk : Bool)
    (h : List.find? (fun x => x.1 == toDateStringDay now) store = none)
    (hj : jsonParse (sanitizeJSON (c.getD [])) = some j) (hf : formatPuzzle j = some p) :
    handlerBlob store now (GenOutcome.content c) fOk false =
      (Response.err PipelineError.putFailed, store, ⟨1, 1, 0, 1⟩) := by
  simp only [handlerBlob, h, hj, hf]
  rfl

/-- Blob equation: miss, good puzzle, succeeding `put`. -/
lemma handlerBlob_missPutOk (store : BlobStore) (now : Nat) (c : Option (List Char))
    (j : Json) (p : Puzzle) (fOk : Bool)
    (h : List.find? (fun x => x.1 == toDateStringDay now) store = none)
    (hj : jsonParse (sanitizeJSON (c.getD [])) = some j) (hf : formatPuzzle j = some p) :
    handlerBlob store now (GenOutcome.content c) fOk true =
      (Response.ok p, (toDateStringDay now, p) :: store, ⟨1, 1, 0, 1⟩) := by
  simp only [handlerBlob, h, hj, hf]
  rfl

/-- An erroring blob-handler run leaves the durable store untouched. -/
lemma handlerBlob_err (store : BlobStore) (now : Nat) (gen : GenOutcome) (fOk pOk : Bool)
    (e : PipelineError) (h : (handlerBlob store now gen fOk pOk).1 = Response.err e) :
    (handlerBlob store now gen fOk pOk).2.1 = store := by
  rcases hfind : List.find? (fun x => x.1 == toDateStringDay now) store with _ | q
  · cases gen with
    | threw => rw [handlerBlob_missThrew store now fOk pOk hfind]
    | content c =>
      rcases hj : jsonParse (sanitizeJSON (c.getD [])) with _ | j
      · rw [handlerBlob_missParseFail store now c fOk pOk hfind hj]
      · rcases hf : formatPuzzle j with _ | p
        · rw [handlerBlob_missFormatFail store now c j fOk pOk hfind hj hf]
        · cases pOk with
          | false => rw [handlerBlob_missPutFail store now c j p fOk hfind hj hf]
          | true =>
            rw [handlerBlob_missPutOk store now c j p fOk hfind hj hf] at h
            exact absurd h (by simp)
  · cases fOk with
    | true =>
      rw [handlerBlob_hit store now gen pOk q hfind] at h
      exact absurd h (by simp)
    | false => rw [handlerBlob_hitFetchFail store now gen pOk q hfind]

/-! ## Concrete inputs used by counterexamples and witnesses -/

/-- A parseable generation output whose single word `AB` has no clue and
whose single clue key `CD` names no word. -/
def rawOrphan : List Char :=
  "\x7b\"theme\":\"T\",\"words\":[\"AB\"],\"clues\":\x7b\"CD\":\"x\"\x7d\x7d".toList

/-- The record the pipeline builds from `rawOrphan`. -/
def pOrphan : Puzzle :=
  ⟨some (Json.str ['T']), [['A', 'B']], [(['C', 'D'], some (Json.str ['x']))]⟩

/-- A parseable generation output whose words list holds a duplicate. -/
def rawDup : List Char :=
  "\x7b\"theme\":\"T\",\"words\":[\"a\",\"a\"],\"clues\":\x7b\x7d\x7d".toList

/-- A well-formed generation output (word `AB`, clue for `AB`). -/
def rawGood : List Char :=
  "\x7b\"theme\":\"T\",\"words\":[\"AB\"],\"clues\":\x7b\"AB\":\"c\"\x7d\x7d".toList

/-- The puzzle normalized from `rawGood`. -/
def pW : Puzzle :=
  ⟨some (Json.str ['T']), [['A', 'B']], [(['A', 'B'], some (Json.str ['c']))]⟩

/-! ## Claims C1 and C2: normalization -/

/-- Claim C1 (corrected): the normalizer performs no words/clues cross-check
and there is no `SchemaViolation` failure: on every well-shaped parse result
it succeeds outright, and it can return a record that violates the
correspondence (second conjunct exhibits one). -/
theorem normalize_no_invariant_check :
    (∀ (th : Json) (ws : List (List Char)) (kvs : List (List Char × Json)),
      (formatPuzzle (mkObjB th ws kvs)).isSome = true) ∧
    (∃ raw p, normalizeB raw = some p ∧ wordsCluesMatch p = false) := by
  constructor
  · intro th ws kvs
    rw [formatPuzzle_mkObjB]
    rfl
  · exact ⟨rawOrphan, pOrphan, rfl, rfl⟩

/-- Claim C1 counterexample: on the parseable input whose word `AB` lacks a
clue and whose clue key `CD` names no word, normalization does not fail — it
returns the violating record, so the claimed `SchemaViolation` failure and
the claimed output invariant are both false. -/
theorem normalize_accepts_orphan_clue :
    normalizeB rawOrphan = some pOrphan ∧ wordsCluesMatch pOrphan = false :=
  ⟨rfl, rfl⟩

/-- Claim C2 (corrected): what normalization actually computes.  Shape B:
words are uppercased and order-preserving but duplicates are NOT removed,
and clue keys are uppercased.  Shape A: words are taken verbatim (not even
uppercased); only the clue keys of the reduce are uppercased. -/
theorem canonical_words_transform :
    (∀ (th : Json) (ws : List (List Char)) (kvs : List (List Char × Json)),
      formatPuzzle (mkObjB th ws kvs) =
        some ⟨some th, ws.map upperStr,
          kvs.map (fun (p : List Char × Json) => (upperStr p.1, some p.2))⟩) ∧
    (∀ (th : Json) (pairs : List (List Char × Json)),
      formatPuzzleA (mkObjA th pairs) =
        some ⟨some th, pairs.map Prod.fst,
          buildCluesA (pairs.map (fun p => (p.1, some p.2)))⟩) :=
  ⟨formatPuzzle_mkObjB, formatPuzzleA_mkObjA⟩

/-- Claim C2 counterexample: the duplicate-bearing input `["a","a"]`
normalizes to the words list `["A","A"]`, not to the spec's uppercased
duplicate-removed list `["A"]`. -/
theorem words_not_deduplicated :
    (normalizeB rawDup).map Puzzle.words = some [['A'], ['A']] ∧
    specCanonicalWords [['a'], ['a']] = [['A']] ∧
    ([['A'], ['A']] : List (List Char)) ≠ specCanonicalWords [['a'], ['a']] :=
  ⟨rfl, rfl, by decide⟩

/-! ## Claims C3 and C4: the blob variant -/

/-- Claim C3 (corrected): on the durable-hit path the blob handler makes
zero generation calls and exactly one durable read (plus the one `list`
call) and returns the stored puzzle with the store unchanged; but the blob
variant maintains no memory tier, so the immediately following call for the
same day again performs one `list` call and one durable read instead of
being a memory hit. -/
theorem durable_hit_path (store : BlobStore) (now : Nat) (gen gen2 : GenOutcome)
    (pOk pOk2 : Bool) (q : Nat × Puzzle)
    (h : List.find? (fun x => x.1 == toDateStringDay now) store = some q) :
    handlerBlob store now gen true pOk = (Response.ok q.2, store, ⟨0, 1, 1, 0⟩) ∧
    (handlerBlob (handlerBlob store now gen true pOk).2.1 now gen2 true pOk2).2.2 =
      ⟨0, 1, 1, 0⟩ := by
  have h1 := handlerBlob_hit store now gen pOk q h
  refine ⟨h1, ?_⟩
  rw [h1]
  rw [handlerBlob_hit store now gen2 pOk2 q h]

/-- Witness for C3's theorem at a concrete store holding today's puzzle. -/
theorem durable_hit_path_witness :
    handlerBlob [(0, pW)] 0 GenOutcome.threw true true =
      (Response.ok pW, [(0, pW)], ⟨0, 1, 1, 0⟩) ∧
    (handlerBlob (handlerBlob [(0, pW)] 0 GenOutcome.threw true true).2.1 0
        GenOutcome.threw true true).2.2 = ⟨0, 1, 1, 0⟩ :=
  durable_hit_path [(0, pW)] 0 GenOutcome.threw GenOutcome.threw true true (0, pW) rfl

/-- Claim C3 counterexample: with today's record durable-stored, the first
call returns it without generating, but the second call still performs a
durable read (`reads ≠ 0`) — no memory tier was populated, so the following
call is not a memory hit as claimed. -/
theorem durable_hit_no_memory_tier :
    (handlerBlob [(0, pW)] 0 GenOutcome.threw true true).1 = Response.ok pW ∧
    ((handlerBlob (handlerBlob [(0, pW)] 0 GenOutcome.threw true true).2.1 0
        GenOutcome.threw true true).2.2).reads ≠ 0 :=
  ⟨rfl, by decide⟩

/-- Claim C4 (corrected): when generation and normalization succeed but the
durable `put` throws, the error propagates to the handler's catch: the
caller receives the 500 error response, not the freshly generated puzzle
(and the store is unchanged). -/
theorem write_failure_returns_error (store : BlobStore) (now : Nat)
    (c : Option (List Char)) (fOk : Bool) (p : Puzzle)
    (hmiss : List.find? (fun x => x.1 == toDateStringDay now) store = none)
    (hp : normalizeB (c.getD []) = some p) :
    handlerBlob store now (GenOutcome.content c) fOk false =
      (Response.err PipelineError.putFailed, store, ⟨1, 1, 0, 1⟩) := by
  unfold normalizeB at hp
  rcases hj : jsonParse (sanitizeJSON (c.getD [])) with _ | j
  · rw [hj] at hp
    simp at hp
  · rw [hj] at hp
    simp only [Option.some_bind] at hp
    exact handlerBlob_missPutFail store now c j p fOk hmiss hj hp

/-- Witness for C4's theorem: a good generation output and a failing put. -/
theorem write_failure_returns_error_witness :
    handlerBlob [] 0 (GenOutcome.content (some rawGood)) true false =
      (Response.err PipelineError.putFailed, [], ⟨1, 1, 0, 1⟩) :=
  write_failure_returns_error [] 0 (some rawGood) true pW rfl rfl

/-- Claim C4 counterexample: on a failing put after a successful generation,
the handler's response is the 500 `putFailed` error — not the freshly
generated puzzle with status 200 as the claim states — and nothing was
persisted. -/
theorem write_failure_counterexample :
    (handlerBlob [] 0 (GenOutcome.content (some rawGood)) true false).1 =
      Response.err PipelineError.putFailed ∧
    (handlerBlob [] 0 (GenOutcome.content (some rawGood)) true false).2.1 = [] :=
  ⟨rfl, rfl⟩

/-! ## Claims C5, C6, C8, C9: the memory variants -/

/-- Claim C5 (confirmed): failures mutate nothing.  (1) Whenever the memory
handler returns an error, the memory tier is exactly what it was.  (2) On a
miss with unparseable (or empty) content the response is the typed
`parseFailed` error.  (3) Whenever the blob handler returns an error, the
durable store is exactly what it was. -/
theorem failure_preserves_cache :
    (∀ (st : MemState) (now : Nat) (gen : GenOutcome) (e : PipelineError),
      (handlerMem st now gen).1 = Response.err e → (handlerMem st now gen).2.1 = st) ∧
    (∀ (st : MemState) (now : Nat) (c : Option (List Char)),
      memHit st now = false → jsonParse (sanitizeJSON (c.getD [])) = none →
      (handlerMem st now (GenOutcome.content c)).1 = Response.err PipelineError.parseFailed) ∧
    (∀ (store : BlobStore) (now : Nat) (gen : GenOutcome) (fOk pOk : Bool) (e : PipelineError),
      (handlerBlob store now gen fOk pOk).1 = Response.err e →
      (handlerBlob store now gen fOk pOk).2.1 = store) := by
  refine ⟨handlerMem_err, ?_, handlerBlob_err⟩
  intro st now c hm hj
  rw [handlerMem_miss st now _ hm, runGenMem_parseFail st now c hj]

/-- Witness for C5's theorem: the spec's concrete failure scenario — raw
output `not json at all` yields the parse error and no cache mutation. -/
theorem failure_preserves_cache_witness :
    (handlerMem ⟨none, none⟩ 0 (GenOutcome.content (some "not json at all".toList))).2.1 =
      (⟨none, none⟩ : MemState) ∧
    (handlerMem ⟨none, none⟩ 0 (GenOutcome.content (some "not json at all".toList))).1 =
      Response.err PipelineError.parseFailed :=
  ⟨failure_preserves_cache.1 ⟨none, none⟩ 0 (GenOutcome.content (some "not json at all".toList))
      PipelineError.parseFailed rfl,
    failure_preserves_cache.2.1 ⟨none, none⟩ 0 (some "not json at all".toList) rfl rfl⟩

/-- Claim C6 (confirmed): when a cached entry exists and was fetched on the
same calendar day as `now`, the memory handler returns it and performs zero
generation calls and zero durable-store operations (the memory variant
contains no durable-store code at all; all counters are zero). -/
theorem memory_hit_short_circuit (st : MemState) (now : Nat) (gen : GenOutcome)
    (p : Puzzle) (d : Nat) (hc : st.cachedResponse = some p) (hl : st.lastFetched = some d)
    (hd : toDateStringDay now = toDateStringDay d) :
    handlerMem st now gen = (Response.ok p, st, ⟨0, 0, 0, 0⟩) := by
  obtain ⟨cr, lf⟩ := st
  dsimp only at hc hl
  subst hc hl
  simp [handlerMem, hd]

/-- Witness for C6's theorem at a concrete populated cache. -/
theorem memory_hit_short_circuit_witness :
    handlerMem ⟨some pW, some 0⟩ 0 GenOutcome.threw =
      (Response.ok pW, ⟨some pW, some 0⟩, ⟨0, 0, 0, 0⟩) :=
  memory_hit_short_circuit ⟨some pW, some 0⟩ 0 GenOutcome.threw pW 0 rfl rfl rfl

/-- Claim C8 (corrected): there is no `GenerationUnavailable` distinct from
the parse error in the shape-B variants: missing or empty content is coerced
to `""` and fails inside `JSON.parse` with the same `parseFailed` outcome as
any unparseable text, while a throwing external call surfaces as the caught
`genThrew` error.  Only the shape-A variant (`part_000`) raises a dedicated
`noContent` error for missing or empty content. -/
theorem empty_content_error_class :
    (∀ (st : MemState) (now : Nat), memHit st now = false →
      (handlerMem st now (GenOutcome.content none)).1 = Response.err PipelineError.parseFailed ∧
      (handlerMem st now (GenOutcome.content (some []))).1 =
        Response.err PipelineError.parseFailed ∧
      (handlerMem st now GenOutcome.threw).1 = Response.err PipelineError.genThrew) ∧
    (∀ (st : MemState) (now : Nat), memHit st now = false →
      (handlerA st now (GenOutcome.content none)).1 = Response.err PipelineError.noContent ∧
      (handlerA st now (GenOutcome.content (some []))).1 =
        Response.err PipelineError.noContent ∧
      (handlerA st now GenOutcome.threw).1 = Response.err PipelineError.genThrew) := by
  constructor
  · intro st now hm
    refine ⟨?_, ?_, ?_⟩ <;> rw [handlerMem_miss st now _ hm] <;> rfl
  · intro st now hm
    refine ⟨?_, ?_, ?_⟩ <;> rw [handlerA_miss st now _ hm] <;> rfl

/-- Witness for C8's theorem on the empty cache. -/
theorem empty_content_error_class_witness :
    ((handlerMem ⟨none, none⟩ 0 (GenOutcome.content none)).1 =
        Response.err PipelineError.parseFailed ∧
      (handlerMem ⟨none, none⟩ 0 (GenOutcome.content (some []))).1 =
        Response.err PipelineError.parseFailed ∧
      (handlerMem ⟨none, none⟩ 0 GenOutcome.threw).1 = Response.err PipelineError.genThrew) ∧
    ((handlerA ⟨none, none⟩ 0 (GenOutcome.content none)).1 =
        Response.err PipelineError.noContent ∧
      (handlerA ⟨none, none⟩ 0 (GenOutcome.content (some []))).1 =
        Response.err PipelineError.noContent ∧
      (handlerA ⟨none, none⟩ 0 GenOutcome.threw).1 = Response.err PipelineError.genThrew) :=
  ⟨empty_content_error_class.1 ⟨none, none⟩ 0 rfl,
    empty_content_error_class.2 ⟨none, none⟩ 0 rfl⟩

/-- Claim C8 counterexample: in the primary variant, a completion with no
textual content fails with exactly the same error as unparseable text —
`parseFailed`, the `MalformedOutput` class — and not with a distinct
generation-unavailable error as the claim states. -/
theorem empty_content_counterexample :
    (handlerMem ⟨none, none⟩ 0 (GenOutcome.content none)).1 =
      Response.err PipelineError.parseFailed ∧
    (handlerMem ⟨none, none⟩ 0 (GenOutcome.content (some "not json".toList))).1 =
      Response.err PipelineError.parseFailed ∧
    PipelineError.parseFailed ≠ PipelineError.genThrew :=
  ⟨rfl, rfl, by decide⟩

/-- Claim C9 (confirmed): both memory-cache variants update `cachedResponse`
and `lastFetched` only together, so "both null or both non-null" is
preserved by every complete handler execution. -/
theorem cache_fields_updated_together (st : MemState) (now : Nat) (gen : GenOutcome)
    (h : st.cachedResponse = none ↔ st.lastFetched = none) :
    (((handlerMem st now gen).2.1).cachedResponse = none ↔
      ((handlerMem st now gen).2.1).lastFetched = none) ∧
    (((handlerA st now gen).2.1).cachedResponse = none ↔
      ((handlerA st now gen).2.1).lastFetched = none) := by
  constructor
  · rcases handlerMem_state_cases st now gen with he | ⟨p, he⟩ <;> rw [he]
    · exact h
    · simp
  · rcases handlerA_state_cases st now gen with he | ⟨p, he⟩ <;> rw [he]
    · exact h
    · simp

/-- Witness for C9's theorem starting from the initial (both-null) state. -/
theorem cache_fields_updated_together_witness :
    (((handlerMem ⟨none, none⟩ 0 GenOutcome.threw).2.1).cachedResponse = none ↔
      ((handlerMem ⟨none, none⟩ 0 GenOutcome.threw).2.1).lastFetched = none) ∧
    (((handlerA ⟨none, none⟩ 0 GenOutcome.threw).2.1).cachedResponse = none ↔
      ((handlerA ⟨none, none⟩ 0 GenOutcome.threw).2.1).lastFetched = none) :=
  cache_fields_updated_together ⟨none, none⟩ 0 GenOutcome.threw (by simp)
